import Mathlib

/-!
Shallow embedding of the repository-analysis core of the code-grading
system (agent2): `git_client.py`, `code_analyzer.py`, `worker.py` and
`runner.py`.  Python exceptions are modelled with `Except`, the
filesystem with an explicit list of existing scratch directories, and
the thread pool's nondeterministic completion order with an arbitrary
permutation of the job list.  Floating-point arithmetic is modelled
with rationals.
-/

namespace CodeGrading

/-! ### Model of the Python `ast` module's output

A parse tree is a tree of nodes; a node carries `some lineno` exactly
when the CPython node object has a `lineno` attribute (statements and
expressions do, `Module` does not).  Comment-only and blank source
lines never carry a node, which is a fact about CPython's parser that
the concrete trees below transcribe. -/

inductive PyNode where
  | node (lineno : Option Nat) (children : List PyNode) : PyNode

mutual

/-- All `lineno` values of nodes reachable from this node, in `ast.walk`
preorder; mirrors the loop `for node in ast.walk(tree): if hasattr(node, "lineno")`. -/
def PyNode.linenos : PyNode → List Nat
  | .node l cs => l.toList ++ linenosList cs

def linenosList : List PyNode → List Nat
  | [] => []
  | c :: cs => c.linenos ++ linenosList cs

end

/-- A Python exception class, as far as the analyzer distinguishes them. -/
inductive PyExc where
  | syntaxError
  | unicodeDecodeError
  | ioError
deriving DecidableEq

/-- Python's `str.strip()`: drop leading and trailing whitespace. -/
def pyStrip (s : List Char) : List Char :=
  ((s.dropWhile Char.isWhitespace).reverse.dropWhile Char.isWhitespace).reverse

/-- A source file as the analyzer observes it: the outcome of reading
its lines (`open(...)`, which may raise at the filesystem level), and
the outcome of `ast.parse` on its contents (which may raise
`SyntaxError` or `UnicodeDecodeError`).  A line is its character list. -/
structure SourceFile where
  read : Except PyExc (List (List Char))
  parseResult : Except PyExc PyNode

/-- Model of `CodeAnalyzer._count_lines_simple`: count the lines whose stripped
content is non-empty (`sum(1 for line in f if line.strip())`); any read
failure is absorbed and yields 0. -/
def count_lines_simple (f : SourceFile) : Nat :=
  match f.read with
  | .error _ => 0
  | .ok ls => (ls.filter (fun l => pyStrip l ≠ [])).length

/-- Model of `CodeAnalyzer.count_code_lines`: read the file, parse it, and return
the cardinality of the set of start lines of AST nodes; on
`SyntaxError`/`UnicodeDecodeError` from the parser fall back to
`_count_lines_simple`; a read failure propagates (it is not in the
`except` clause). -/
def count_code_lines (f : SourceFile) : Except PyExc Nat :=
  match f.read with
  | .error e => .error e
  | .ok _ =>
    match f.parseResult with
    | .ok tree => .ok tree.linenos.dedup.length
    | .error _ => .ok (count_lines_simple f)

/-- The dictionary returned by `CodeAnalyzer.analyze_repository`. -/
structure RepoMetrics where
  total_lines : Nat
  lines_within_limit : Nat
  files_over_limit : Nat
  total_files : Nat
deriving DecidableEq

/-- The `for py_file in python_files` loop of `analyze_repository`,
with the three accumulators `total_lines`, `lines_within_limit`,
`files_over_limit`; an exception from `count_code_lines` aborts it. -/
def analyzeFold : List SourceFile → Nat → Nat → Nat → Except PyExc (Nat × Nat × Nat)
  | [], t, w, o => .ok (t, w, o)
  | f :: fs, t, w, o =>
    match count_code_lines f with
    | .error e => .error e
    | .ok c =>
      if c ≤ 150 then analyzeFold fs (t + c) (w + c) o
      else analyzeFold fs (t + c) w (o + 1)

/-- Model of `CodeAnalyzer.analyze_repository`, over the list of Python files
found by `find_python_files`. -/
def analyze_repository (files : List SourceFile) : Except PyExc RepoMetrics :=
  (analyzeFold files 0 0 0).map (fun r =>
    { total_lines := r.1
      lines_within_limit := r.2.1
      files_over_limit := r.2.2
      total_files := files.length })

/-- Round to 2 decimal places, the `round(x, 2)` of the source
(tie-breaking of binary floats abstracted to exact rounding on ℚ). -/
def round2 (x : ℚ) : ℚ := ((round (x * 100) : ℤ) : ℚ) / 100

/-- Model of `CodeAnalyzer.calculate_grade`. -/
def calculate_grade (m : RepoMetrics) : ℚ :=
  if m.total_lines = 0 then 0
  else round2 ((m.lines_within_limit : ℚ) / (m.total_lines : ℚ) * 100)

/-! ### Model of `git_client.py` and `worker.py`

The filesystem is a list of existing scratch-directory names.
`clone_repo` first creates the scratch directory (`tempfile.mkdtemp`)
and only then runs `git clone`; a clone failure or timeout raises after
the directory exists.  `cleanup_repo` is `shutil.rmtree(...,
ignore_errors=True)`: it removes the directory and never raises. -/

/-- One input record, a row with keys `ID` and `Repo`. -/
structure Job where
  ID : Nat
  Repo : String

/-- The environment one job's pipeline runs against: the fresh directory
name `mkdtemp` picks, whether the `git clone` subprocess succeeds within
its timeout, and the Python files of the checked-out tree. -/
structure JobEnv where
  scratchDir : Nat
  cloneOk : Bool
  files : List SourceFile

/-- Model of `GitClient.clone_repo repo_url`: create the scratch directory, then
either return its path or raise out of `subprocess.run`. -/
def clone_repo (env : JobEnv) (fs : List Nat) : Except PyExc Nat × List Nat :=
  (if env.cloneOk then .ok env.scratchDir else .error .ioError,
   env.scratchDir :: fs)

/-- Model of `GitClient.cleanup_repo`: `shutil.rmtree(repo_dir, ignore_errors=True)`. -/
def cleanup_repo (d : Nat) (fs : List Nat) : List Nat := fs.erase d

/-- The dictionary a worker returns. -/
structure WorkerResult where
  ID : Nat
  grade : ℚ
  Status : String
deriving DecidableEq

/-- Model of `RepoWorker.process`: clone, analyze, grade; any exception is caught
and turned into an error result; the `finally` block cleans up the
scratch directory only when `repo_dir` was assigned, i.e. only when
`clone_repo` returned. -/
def process (job : Job) (env : JobEnv) (fs : List Nat) :
    WorkerResult × List Nat :=
  match clone_repo env fs with
  | (.error _, fs1) =>
    ({ ID := job.ID, grade := 0, Status := "error" }, fs1)
  | (.ok d, fs1) =>
    match analyze_repository env.files with
    | .ok m =>
      ({ ID := job.ID, grade := calculate_grade m, Status := "ready" },
       cleanup_repo d fs1)
    | .error _ =>
      ({ ID := job.ID, grade := 0, Status := "error" },
       cleanup_repo d fs1)

/-! ### Model of `Agent2._process_parallel`

Each job is submitted to the pool; `as_completed` yields the futures in
an arbitrary order; for each future the runner appends `future.result()`
when it is truthy, and appends an error result for the job's recorded ID
when the future raised.  A `JobSpec` bundles a job with its environment
and with the exogenous possibility that its future raised. -/

structure JobSpec where
  job : Job
  env : JobEnv
  futureRaised : Bool

/-- The body of the `for future in as_completed(futures)` loop for one
future: `.error` is the `except` branch, `.ok none` is a `None` result
dropped by `if result:`, `.ok (some r)` is appended. -/
def collectOne (repoId : Nat) (fut : Except Unit (Option WorkerResult)) :
    List WorkerResult :=
  match fut with
  | .error _ => [{ ID := repoId, grade := 0, Status := "error" }]
  | .ok none => []
  | .ok (some r) => [r]

/-- What one job's future delivers: `RepoWorker.process` always returns
a (truthy, non-`None`) dictionary, so a non-raising future yields
`some` of its result. -/
def futureOf (js : JobSpec) : Except Unit (Option WorkerResult) :=
  if js.futureRaised then .error () else .ok (some (process js.job js.env []).1)

/-- Model of `Agent2._process_parallel`, parameterised by the completion order
`order` of the futures (any permutation of the submitted jobs). -/
def process_parallel (order : List JobSpec) : List WorkerResult :=
  order.flatMap (fun js => collectOne js.job.ID (futureOf js))

/-- The result one job contributes, independent of every other job. -/
def runJob (js : JobSpec) : WorkerResult :=
  if js.futureRaised then { ID := js.job.ID, grade := 0, Status := "error" }
  else (process js.job js.env []).1

/-! ### Concrete inputs used to evaluate the model -/

/-- The per-file counts the `analyze_repository` loop consumes, or the
first exception one of them raises. -/
def mapCounts : List SourceFile → Except PyExc (List Nat)
  | [] => .ok []
  | f :: fs =>
    match count_code_lines f, mapCounts fs with
    | .error e, _ => .error e
    | .ok _, .error e => .error e
    | .ok c, .ok cs => .ok (c :: cs)

/-- A well-formed file of exactly `n` code lines: its parse tree has one
statement node starting on each of the lines `1..n`. -/
def mkCountedFile (n : Nat) : SourceFile :=
  { read := .ok ((List.range n).map (fun _ => "x = 1".toList))
    parseResult :=
      .ok (.node none ((List.range n).map (fun i => .node (some (i + 1)) []))) }

/-- The CPython parse tree of the two-line file whose line 1 is
`"""module docstring"""` and whose line 2 is `x = 1`:
`Module(body=[Expr(value=Constant(...)), Assign(targets=[Name], value=Constant)])`.
The standalone docstring statement is an `Expr` node with `lineno = 1`
wrapping a `Constant` node with `lineno = 1`. -/
def docstringTree : PyNode :=
  .node none
    [.node (some 1) [.node (some 1) []],
     .node (some 2) [.node (some 2) [], .node (some 2) []]]

/-- The two-line file consisting of a module docstring and one assignment. -/
def docstringFile : SourceFile :=
  { read := .ok ["\"\"\"module docstring\"\"\"".toList, "x = 1".toList]
    parseResult := .ok docstringTree }

/-- A file whose contents do not parse (`ast.parse` raises `SyntaxError`);
two of its four lines are blank after stripping. -/
def malformedFile : SourceFile :=
  { read := .ok ["x ===".toList, "".toList, "   ".toList, "y = 1".toList]
    parseResult := .error .syntaxError }

/-- A file the filesystem refuses to read (e.g. permission denied). -/
def unreadableFile : SourceFile :=
  { read := .error .ioError, parseResult := .error .ioError }

/-- A readable file with no contents at all. -/
def emptyFile : SourceFile :=
  { read := .ok [], parseResult := .ok (.node none []) }

def jobA : Job := { ID := 7, Repo := "https://example.com/a.git" }

def jobB : Job := { ID := 8, Repo := "https://example.com/b.git" }

/-- Environment in which `git clone` fails or times out after `mkdtemp`
already created scratch directory 42. -/
def envFail : JobEnv := { scratchDir := 42, cloneOk := false, files := [] }

/-- Environment of a successful job: the clone succeeds into scratch
directory 43 and the tree holds one ordinary two-line file. -/
def envOk : JobEnv :=
  { scratchDir := 43, cloneOk := true, files := [mkCountedFile 2] }

/-- Environment where the clone succeeds but the analysis raises: the
checked-out tree holds a file whose read fails at the filesystem level,
which propagates out of `count_code_lines`. -/
def envAnalyzeFail : JobEnv :=
  { scratchDir := 44, cloneOk := true, files := [unreadableFile] }

def specA : JobSpec := { job := jobA, env := envOk, futureRaised := false }

def specB : JobSpec := { job := jobB, env := envFail, futureRaised := false }

/-- The metrics of the spec's worked scenario: files of 100 and 200
pure-code lines give total 300, within-limit 100, grade 33.33. -/
def sampleMetricsC4 : RepoMetrics :=
  { total_lines := 300, lines_within_limit := 100, files_over_limit := 1,
    total_files := 2 }

/-- The metrics `analyze_repository` computes on `[mkCountedFile 2]`. -/
def analyzedOk : RepoMetrics :=
  { total_lines := 2, lines_within_limit := 2, files_over_limit := 0,
    total_files := 1 }

/-! ### Helper lemmas about the worker and the pool -/

theorem process_cloneFail (job : Job) (env : JobEnv) (fs : List Nat)
    (h : env.cloneOk = false) :
    process job env fs =
      ({ ID := job.ID, grade := 0, Status := "error" }, env.scratchDir :: fs) := by
  simp [process, clone_repo, h]

theorem process_cloneOk_analyzeOk (job : Job) (env : JobEnv) (fs : List Nat)
    (m : RepoMetrics) (h : env.cloneOk = true)
    (hm : analyze_repository env.files = .ok m) :
    process job env fs =
      ({ ID := job.ID, grade := calculate_grade m, Status := "ready" }, fs) := by
  simp [process, clone_repo, h, hm, cleanup_repo]

theorem process_cloneOk_analyzeFail (job : Job) (env : JobEnv) (fs : List Nat)
    (e : PyExc) (h : env.cloneOk = true)
    (he : analyze_repository env.files = .error e) :
    process job env fs =
      ({ ID := job.ID, grade := 0, Status := "error" }, fs) := by
  simp [process, clone_repo, h, he, cleanup_repo]

theorem process_fst_ID (job : Job) (env : JobEnv) (fs : List Nat) :
    ((process job env fs).1).ID = job.ID := by
  cases h : env.cloneOk with
  | false => rw [process_cloneFail job env fs h]
  | true =>
    cases hm : analyze_repository env.files with
    | ok m => rw [process_cloneOk_analyzeOk job env fs m h hm]
    | error e => rw [process_cloneOk_analyzeFail job env fs e h hm]

theorem collectOne_futureOf (js : JobSpec) :
    collectOne js.job.ID (futureOf js) = [runJob js] := by
  cases h : js.futureRaised <;> simp [collectOne, futureOf, runJob, h]

theorem process_parallel_eq_map (order : List JobSpec) :
    process_parallel order = order.map runJob := by
  induction order with
  | nil => rfl
  | cons js rest ih =>
    simp [process_parallel, List.flatMap_cons] at ih ⊢
    rw [collectOne_futureOf js]
    simp [ih]

theorem runJob_ID (js : JobSpec) : (runJob js).ID = js.job.ID := by
  cases h : js.futureRaised with
  | true => simp [runJob, h]
  | false => simp [runJob, h, process_fst_ID]

/-- Claim C1: for every input job list, `_process_parallel` produces
exactly one result per input job — under any completion order of the
futures, the multiset of output IDs equals the multiset of input job
IDs, with no job dropped and no job duplicated, regardless of whether
individual jobs succeed or fail. -/
theorem process_parallel_id_perm (specs order : List JobSpec)
    (h : order.Perm specs) :
    ((process_parallel order).map WorkerResult.ID).Perm
      (specs.map (fun js => js.job.ID)) := by
  rw [process_parallel_eq_map, List.map_map]
  have hcomp : (WorkerResult.ID ∘ runJob) = fun js => js.job.ID :=
    funext runJob_ID
  rw [hcomp]
  exact h.map _

/-- Witness for C1 at two concrete jobs completing in reversed order. -/
theorem process_parallel_id_perm_witness :
    ([specB, specA].Perm [specA, specB]) ∧
    ((process_parallel [specB, specA]).map WorkerResult.ID).Perm
      ([specA, specB].map (fun js => js.job.ID)) :=
  ⟨List.Perm.swap specA specB [],
   process_parallel_id_perm [specA, specB] [specB, specA]
     (List.Perm.swap specA specB [])⟩

/-- Claim C2: any unhandled failure in one job's pipeline — a clone
failure or timeout, or an exception escaping the analysis — is caught
at the per-job boundary and recorded as the terminal result
`{ID := job's ID, grade := 0, Status := "error"}`; the pool still emits
one result per submitted job, and every job's entry is a function of
that job's own spec alone, so sibling jobs are unaffected. -/
theorem job_failure_isolated (js : JobSpec) (order : List JobSpec)
    (hfail : js.env.cloneOk = false ∨
      ∃ e, analyze_repository js.env.files = .error e)
    (hmem : js ∈ order) :
    collectOne js.job.ID (futureOf js) =
      [{ ID := js.job.ID, grade := 0, Status := "error" }] ∧
    ({ ID := js.job.ID, grade := 0, Status := "error" } : WorkerResult) ∈
      process_parallel order ∧
    process_parallel order = order.map runJob ∧
    (process_parallel order).length = order.length := by
  have hrun : runJob js = { ID := js.job.ID, grade := 0, Status := "error" } := by
    cases hf : js.futureRaised with
    | true => simp [runJob, hf]
    | false =>
      simp only [runJob, hf, Bool.false_eq_true, if_false]
      rcases hfail with h | ⟨e, he⟩
      · rw [process_cloneFail js.job js.env [] h]
      · cases hc : js.env.cloneOk with
        | false => rw [process_cloneFail js.job js.env [] hc]
        | true => rw [process_cloneOk_analyzeFail js.job js.env [] e hc he]
  refine ⟨by rw [collectOne_futureOf js, hrun], ?_, process_parallel_eq_map order, ?_⟩
  · rw [process_parallel_eq_map order, ← hrun]
    exact List.mem_map_of_mem runJob hmem
  · rw [process_parallel_eq_map order, List.length_map]

/-- Witness for C2: a job whose clone fails, pooled with a healthy job. -/
theorem job_failure_isolated_witness :
    (specB.env.cloneOk = false ∨
      ∃ e, analyze_repository specB.env.files = .error e) ∧
    (specB ∈ [specA, specB]) ∧
    (({ ID := specB.job.ID, grade := 0, Status := "error" } : WorkerResult) ∈
      process_parallel [specA, specB]) :=
  ⟨Or.inl rfl, by simp,
   (job_failure_isolated specB [specA, specB] (Or.inl rfl) (by simp)).2.1⟩

/-- Claim C3 counterexample: on the fetch-failure exit path the claim
fails.  `mkdtemp` inside `clone_repo` creates scratch directory 42,
`git clone` then raises, `repo_dir` in `RepoWorker.process` is still
`None`, so the `finally` block skips cleanup: after the job's result is
finalized (Status "error") the directory still exists. -/
theorem scratch_dir_leak_on_fetch_failure :
    (process jobA envFail []).1.Status = "error" ∧
    (process jobA envFail []).2 = [42] := by
  rw [process_cloneFail jobA envFail [] rfl]
  exact ⟨rfl, rfl⟩

/-- Claim C3 (amended): on every exit path of the per-job pipeline on
which the fetch returned — normal completion, classifier exception,
aggregator exception — the scratch directory is removed before the
job's result is finalized; on a fetch failure or fetch timeout the
directory created by the fetcher is not removed. -/
theorem scratch_dir_removed_after_successful_fetch (job : Job) (env : JobEnv)
    (fs : List Nat) (h : env.cloneOk = true) :
    (process job env fs).2 = fs := by
  cases hm : analyze_repository env.files with
  | ok m => rw [process_cloneOk_analyzeOk job env fs m h hm]
  | error e => rw [process_cloneOk_analyzeFail job env fs e h hm]

/-- Witness for amended C3 on both a normal completion and an exit via
an analysis exception. -/
theorem scratch_dir_removed_after_successful_fetch_witness :
    (envOk.cloneOk = true ∧ (process jobA envOk []).2 = []) ∧
    (envAnalyzeFail.cloneOk = true ∧ (process jobB envAnalyzeFail []).2 = []) :=
  ⟨⟨rfl, scratch_dir_removed_after_successful_fetch jobA envOk [] rfl⟩,
   ⟨rfl, scratch_dir_removed_after_successful_fetch jobB envAnalyzeFail [] rfl⟩⟩

/-- Claim C10: for every record holding both an ID and a repository URL,
`RepoWorker.process` is total (the model is a total function — every
exception of the pipeline is caught by its `except Exception` clause),
returns a result whose ID equals the record's ID, whose Status is
"ready" or "error", and whose grade is 0.0 whenever the Status is
"error". -/
theorem process_never_raises (job : Job) (env : JobEnv) (fs : List Nat) :
    (process job env fs).1.ID = job.ID ∧
    ((process job env fs).1.Status = "ready" ∨
      (process job env fs).1.Status = "error") ∧
    ((process job env fs).1.Status = "error" →
      (process job env fs).1.grade = 0) := by
  cases h : env.cloneOk with
  | false =>
    rw [process_cloneFail job env fs h]
    exact ⟨rfl, Or.inr rfl, fun _ => rfl⟩
  | true =>
    cases hm : analyze_repository env.files with
    | ok m =>
      rw [process_cloneOk_analyzeOk job env fs m h hm]
      exact ⟨rfl, Or.inl rfl, fun hco => by simp at hco⟩
    | error e =>
      rw [process_cloneOk_analyzeFail job env fs e h hm]
      exact ⟨rfl, Or.inr rfl, fun _ => rfl⟩

/-! ### Helper lemmas about the analyzer -/

theorem filter_sum_le (p : Nat → Bool) (cs : List Nat) :
    (cs.filter p).sum ≤ cs.sum := by
  induction cs with
  | nil => simp
  | cons c cs ih =>
    cases h : p c <;> simp [List.filter_cons, h] <;> omega

theorem analyzeFold_closed (files : List SourceFile) :
    ∀ cs : List Nat, mapCounts files = .ok cs →
    ∀ t w o, analyzeFold files t w o =
      .ok (t + cs.sum, w + (cs.filter (fun c => c ≤ 150)).sum,
           o + (cs.filter (fun c => 150 < c)).length) := by
  induction files with
  | nil =>
    intro cs hcs t w o
    simp [mapCounts] at hcs
    subst hcs
    simp [analyzeFold]
  | cons f fs ih =>
    intro cs hcs t w o
    cases hf : count_code_lines f with
    | error e => simp [mapCounts, hf] at hcs
    | ok c =>
      cases hr : mapCounts fs with
      | error e => simp [mapCounts, hf, hr] at hcs
      | ok cs' =>
        simp [mapCounts, hf, hr] at hcs
        subst hcs
        by_cases hc : c ≤ 150
        · have hstep : analyzeFold (f :: fs) t w o =
              analyzeFold fs (t + c) (w + c) o := by
            simp [analyzeFold, hf, hc]
          have hnot : ¬ 150 < c := by omega
          rw [hstep, ih cs' hr (t + c) (w + c) o]
          simp [List.filter_cons, hc, hnot, Prod.ext_iff]
          exact ⟨by omega, by omega⟩
        · have hstep : analyzeFold (f :: fs) t w o =
              analyzeFold fs (t + c) w (o + 1) := by
            simp [analyzeFold, hf, hc]
          have hlt : 150 < c := by omega
          rw [hstep, ih cs' hr (t + c) w (o + 1)]
          simp [List.filter_cons, hc, hlt, Prod.ext_iff]
          exact ⟨by omega, by omega⟩

theorem mapCounts_ok_of_analyzeFold_ok (files : List SourceFile) :
    ∀ t w o r, analyzeFold files t w o = .ok r →
      ∃ cs, mapCounts files = .ok cs := by
  induction files with
  | nil => exact fun t w o r _ => ⟨[], rfl⟩
  | cons f fs ih =>
    intro t w o r hr
    cases hf : count_code_lines f with
    | error e => simp [analyzeFold, hf] at hr
    | ok c =>
      by_cases hc : c ≤ 150
      · obtain ⟨cs, hcs⟩ :=
          ih (t + c) (w + c) o r (by simpa [analyzeFold, hf, hc] using hr)
        exact ⟨c :: cs, by simp [mapCounts, hf, hcs]⟩
      · obtain ⟨cs, hcs⟩ :=
          ih (t + c) w (o + 1) r (by simpa [analyzeFold, hf, hc] using hr)
        exact ⟨c :: cs, by simp [mapCounts, hf, hcs]⟩

theorem count_code_lines_ok_of_read_ok (g : SourceFile)
    (ls : List (List Char)) (h : g.read = .ok ls) :
    ∃ c, count_code_lines g = .ok c := by
  cases hp : g.parseResult with
  | ok tree =>
    exact ⟨tree.linenos.dedup.length, by simp [count_code_lines, h, hp]⟩
  | error e =>
    exact ⟨count_lines_simple g, by simp [count_code_lines, h, hp]⟩

theorem analyzeFold_ok_of_reads_ok (files : List SourceFile)
    (hread : ∀ g ∈ files, ∃ ls, g.read = .ok ls) :
    ∀ t w o, ∃ r, analyzeFold files t w o = .ok r := by
  induction files with
  | nil => exact fun t w o => ⟨_, rfl⟩
  | cons f fs ih =>
    intro t w o
    obtain ⟨ls, hls⟩ := hread f (by simp)
    obtain ⟨c, hc⟩ := count_code_lines_ok_of_read_ok f ls hls
    have ih' := ih (fun g hg => hread g (by simp [hg]))
    by_cases h150 : c ≤ 150
    · obtain ⟨r, hr⟩ := ih' (t + c) (w + c) o
      exact ⟨r, by simp [analyzeFold, hc, h150, hr]⟩
    · obtain ⟨r, hr⟩ := ih' (t + c) w (o + 1)
      exact ⟨r, by simp [analyzeFold, hc, h150, hr]⟩

theorem linenosList_map (l : List Nat) :
    linenosList (l.map (fun i => PyNode.node (some (i + 1)) [])) =
      l.map (fun i => i + 1) := by
  induction l with
  | nil => rfl
  | cons a l ih => simp [linenosList, PyNode.linenos, ih]

theorem count_mkCountedFile (n : Nat) :
    count_code_lines (mkCountedFile n) = .ok n := by
  have hnodup : ((List.range n).map (fun i => i + 1)).Nodup :=
    (List.nodup_range n).map (fun a b hab => by omega)
  simp [count_code_lines, mkCountedFile, PyNode.linenos, linenosList_map]
  rw [List.dedup_eq_self.mpr hnodup]
  simp

/-- Claim C4: for every metrics record with
`lines_within_limit ≤ total_lines`, `calculate_grade` returns 0 when
`total_lines = 0` and otherwise `round(100 * lines_within_limit /
total_lines, 2)`; consequently the grade lies in `[0, 100]` and is a
multiple of `1/100`, i.e. rounded to exactly 2 decimal places. -/
theorem calculate_grade_bounds (m : RepoMetrics)
    (h : m.lines_within_limit ≤ m.total_lines) :
    (m.total_lines = 0 → calculate_grade m = 0) ∧
    (m.total_lines ≠ 0 →
      calculate_grade m =
        round2 (100 * (m.lines_within_limit : ℚ) / (m.total_lines : ℚ))) ∧
    0 ≤ calculate_grade m ∧ calculate_grade m ≤ 100 ∧
    ∃ k : ℤ, calculate_grade m * 100 = (k : ℚ) := by
  by_cases ht : m.total_lines = 0
  · have hg0 : calculate_grade m = 0 := by simp [calculate_grade, ht]
    exact ⟨fun _ => hg0, fun hn => absurd ht hn, by simp [hg0],
      by simp [hg0], ⟨0, by simp [hg0]⟩⟩
  · have ht' : (0:ℚ) < (m.total_lines : ℚ) := by
      exact_mod_cast Nat.pos_of_ne_zero ht
    have hw : (m.lines_within_limit : ℚ) ≤ (m.total_lines : ℚ) := by
      exact_mod_cast h
    have hw0 : (0:ℚ) ≤ (m.lines_within_limit : ℚ) := by positivity
    set x : ℚ := (m.lines_within_limit : ℚ) / (m.total_lines : ℚ) * 100 with hxdef
    have hg : calculate_grade m = round2 x := by
      simp [calculate_grade, ht, hxdef]
    have hx0 : 0 ≤ x := by
      rw [hxdef]
      positivity
    have hx1 : x ≤ 100 := by
      have hdiv : (m.lines_within_limit : ℚ) / (m.total_lines : ℚ) ≤ 1 :=
        (div_le_one ht').mpr hw
      rw [hxdef]
      linarith
    have hr0 : (0:ℤ) ≤ round (x * 100) := by
      rw [round_eq]
      exact Int.le_floor.mpr (by push_cast; linarith)
    have hr1 : round (x * 100) ≤ 10000 := by
      rw [round_eq]
      have h1 : (⌊x * 100 + 1/2⌋ : ℚ) ≤ x * 100 + 1/2 := Int.floor_le _
      have h2 : ((⌊x * 100 + 1/2⌋ : ℤ) : ℚ) < ((10001 : ℤ) : ℚ) := by
        push_cast
        linarith
      have h3 : ⌊x * 100 + 1/2⌋ < 10001 := by exact_mod_cast h2
      omega
    have hr0' : (0:ℚ) ≤ ((round (x * 100) : ℤ) : ℚ) := by exact_mod_cast hr0
    have hr1' : ((round (x * 100) : ℤ) : ℚ) ≤ 10000 := by exact_mod_cast hr1
    refine ⟨fun h0 => absurd h0 ht, fun _ => ?_, ?_, ?_, ⟨round (x * 100), ?_⟩⟩
    · rw [hg]
      have : x = 100 * (m.lines_within_limit : ℚ) / (m.total_lines : ℚ) := by
        rw [hxdef]
        ring
      rw [this]
    · rw [hg, round2]
      linarith
    · rw [hg, round2]
      linarith
    · rw [hg, round2]
      field_simp

/-- Witness for C4 at the spec's worked scenario (total 300 lines, 100
within limit): the grade is 33.33 and lies in the required range. -/
theorem calculate_grade_bounds_witness :
    sampleMetricsC4.lines_within_limit ≤ sampleMetricsC4.total_lines ∧
    0 ≤ calculate_grade sampleMetricsC4 ∧
    calculate_grade sampleMetricsC4 ≤ 100 ∧
    calculate_grade sampleMetricsC4 = 3333 / 100 :=
  ⟨by norm_num [sampleMetricsC4],
   (calculate_grade_bounds sampleMetricsC4 (by norm_num [sampleMetricsC4])).2.2.1,
   (calculate_grade_bounds sampleMetricsC4 (by norm_num [sampleMetricsC4])).2.2.2.1,
   by norm_num [calculate_grade, sampleMetricsC4, round2, round_eq]⟩

/-- Claim C5: whenever `analyze_repository` returns metrics, they
satisfy `lines_within_limit ≤ total_lines`, and all four fields are
non-negative integers. -/
theorem analyze_repository_invariant (files : List SourceFile)
    (m : RepoMetrics) (h : analyze_repository files = .ok m) :
    m.lines_within_limit ≤ m.total_lines ∧
    (0:ℤ) ≤ (m.total_lines : ℤ) ∧ (0:ℤ) ≤ (m.lines_within_limit : ℤ) ∧
    (0:ℤ) ≤ (m.files_over_limit : ℤ) ∧ (0:ℤ) ≤ (m.total_files : ℤ) := by
  have hfold : ∃ r, analyzeFold files 0 0 0 = .ok r := by
    unfold analyze_repository at h
    cases hr : analyzeFold files 0 0 0 with
    | error e => rw [hr] at h; simp [Except.map] at h
    | ok r => exact ⟨r, rfl⟩
  obtain ⟨r, hr⟩ := hfold
  obtain ⟨cs, hcs⟩ := mapCounts_ok_of_analyzeFold_ok files 0 0 0 r hr
  unfold analyze_repository at h
  rw [analyzeFold_closed files cs hcs 0 0 0] at h
  simp [Except.map] at h
  subst h
  refine ⟨?_, ?_, ?_, ?_, ?_⟩
  · simpa using filter_sum_le (fun c => c ≤ 150) cs
  all_goals positivity

/-- Witness for C5 on a one-file repository of 2 code lines. -/
theorem analyze_repository_invariant_witness :
    analyze_repository [mkCountedFile 2] = .ok analyzedOk ∧
    analyzedOk.lines_within_limit ≤ analyzedOk.total_lines :=
  have hdef : analyze_repository [mkCountedFile 2] = .ok analyzedOk := by
    simp [analyze_repository, analyzeFold, count_mkCountedFile, analyzedOk,
      Except.map]
  ⟨hdef, (analyze_repository_invariant [mkCountedFile 2] analyzedOk hdef).1⟩

/-- Claim C6: the aggregator folds per-file counts by adding each count
to `total_lines`, adding it to `lines_within_limit` when it is at most
150 and otherwise incrementing `files_over_limit`, with `total_files`
the number of enumerated files; a file of exactly 150 code lines is
within-limit and a file of 151 code lines is over-limit. -/
theorem analyze_repository_fold_spec (files : List SourceFile)
    (cs : List Nat) (hcs : mapCounts files = .ok cs) :
    analyze_repository files = .ok
      { total_lines := cs.sum
        lines_within_limit := (cs.filter (fun c => c ≤ 150)).sum
        files_over_limit := (cs.filter (fun c => 150 < c)).length
        total_files := files.length } ∧
    analyze_repository [mkCountedFile 150] = .ok
      { total_lines := 150, lines_within_limit := 150, files_over_limit := 0,
        total_files := 1 } ∧
    analyze_repository [mkCountedFile 151] = .ok
      { total_lines := 151, lines_within_limit := 0, files_over_limit := 1,
        total_files := 1 } := by
  refine ⟨?_, ?_, ?_⟩
  · unfold analyze_repository
    rw [analyzeFold_closed files cs hcs 0 0 0]
    simp [Except.map]
  · simp [analyze_repository, analyzeFold, count_mkCountedFile, Except.map]
  · simp [analyze_repository, analyzeFold, count_mkCountedFile, Except.map]

/-- Witness for C6 on a one-file repository of 2 code lines. -/
theorem analyze_repository_fold_spec_witness :
    mapCounts [mkCountedFile 2] = .ok [2] ∧
    analyze_repository [mkCountedFile 2] = .ok
      { total_lines := [2].sum
        lines_within_limit := ([2].filter (fun c => c ≤ 150)).sum
        files_over_limit := ([2].filter (fun c => 150 < c)).length
        total_files := [mkCountedFile 2].length } :=
  have hcs : mapCounts [mkCountedFile 2] = .ok [2] := by
    simp [mapCounts, count_mkCountedFile]
  ⟨hcs, (analyze_repository_fold_spec [mkCountedFile 2] [2] hcs).1⟩

/-- Claim C7 (code bug): on a file whose line 1 is wholly occupied by a
standalone module docstring and whose line 2 is `x = 1`,
`count_code_lines` returns 2, not 1.  In CPython the docstring
statement is an `Expr` node whose `lineno` is 1, so the walk adds the
docstring-only line to the counted set; this contradicts the
function's own docstring ("excluding comments, docstrings, blank
lines") and the claim's exclusion of docstring-only lines. -/
theorem count_code_lines_counts_docstring_line :
    count_code_lines docstringFile = .ok 2 ∧
    1 ∈ docstringTree.linenos ∧
    docstringTree.linenos.dedup = [1, 2] := by
  exact ⟨rfl, by decide, by decide⟩

/-- Claim C8: a file whose contents fail structural parsing is counted
by the fallback — the number of lines whose stripped content is
non-empty — without raising, and such a file never aborts the owning
repository's analysis (any repository all of whose files are readable
analyzes successfully). -/
theorem parse_failure_fallback (f : SourceFile) (ls : List (List Char))
    (e : PyExc) (hr : f.read = .ok ls) (hp : f.parseResult = .error e) :
    count_code_lines f = .ok ((ls.filter (fun l => pyStrip l ≠ [])).length) ∧
    (∀ files : List SourceFile, f ∈ files →
      (∀ g ∈ files, ∃ ls', g.read = .ok ls') →
      ∃ m, analyze_repository files = .ok m) := by
  constructor
  · simp [count_code_lines, hr, hp, count_lines_simple]
  · intro files _ hreads
    obtain ⟨r, hfold⟩ := analyzeFold_ok_of_reads_ok files hreads 0 0 0
    exact ⟨{ total_lines := r.1, lines_within_limit := r.2.1,
             files_over_limit := r.2.2, total_files := files.length },
           by simp [analyze_repository, hfold, Except.map]⟩

/-- Witness for C8: the malformed four-line file has two non-blank
lines and its count is 2. -/
theorem parse_failure_fallback_witness :
    malformedFile.read =
      .ok ["x ===".toList, "".toList, "   ".toList, "y = 1".toList] ∧
    malformedFile.parseResult = .error .syntaxError ∧
    count_code_lines malformedFile = .ok 2 :=
  ⟨rfl, rfl, by
    have h := (parse_failure_fallback malformedFile
      ["x ===".toList, "".toList, "   ".toList, "y = 1".toList]
      .syntaxError rfl rfl).1
    have hlen : ((["x ===".toList, "".toList, "   ".toList,
        "y = 1".toList].filter (fun l => pyStrip l ≠ [])).length) = 2 := by
      decide
    rw [h, hlen]⟩

/-- Claim C9: a file that cannot be read at the filesystem level makes
the fallback counter return 0 rather than raise or signal a distinct
error, so an unreadable file is indistinguishable from an empty one. -/
theorem unreadable_reads_as_empty (f : SourceFile) (e : PyExc)
    (h : f.read = .error e) :
    count_lines_simple f = 0 ∧
    ∀ g : SourceFile, g.read = .ok [] →
      count_lines_simple f = count_lines_simple g := by
  have h0 : count_lines_simple f = 0 := by simp [count_lines_simple, h]
  exact ⟨h0, fun g hg => by simp [count_lines_simple, h, hg]⟩

/-- Witness for C9: a permission-denied file and an empty file count
the same. -/
theorem unreadable_reads_as_empty_witness :
    unreadableFile.read = .error .ioError ∧
    emptyFile.read = .ok [] ∧
    count_lines_simple unreadableFile = count_lines_simple emptyFile :=
  ⟨rfl, rfl,
   (unreadable_reads_as_empty unreadableFile .ioError rfl).2 emptyFile rfl⟩

end CodeGrading
